import Mathlib

/-!
Verification development for the gamma-LUT setter (src/gamma.c).

The C program is embedded shallowly:

* Text handling (comment stripping, trimming, INI scanning) is modelled on
  `List Char` (one list per line; files are lists of lines).  The C code reads
  lines with fgets into a 512-byte buffer; we assume lines fit the buffer.
* C doubles are modelled as exact numbers: `ℚ` in the parsing / configuration
  layer (where all values come from decimal literals and are compared against
  decimal bounds, so exact decimal arithmetic agrees with the double
  computation), and `ℝ` in the curve-synthesis layer (where `pow` becomes
  `Real.rpow`).  The single place where IEEE-754 special values matter — the
  division 0.0/0.0 producing NaN when the table length is 1, which
  `fmax(0.0, NaN) = 0.0` then absorbs — is modelled explicitly in `lut_base`.
* The DRM calls (device open, property lookup, blob creation, atomic commit)
  are opaque I/O; the model keeps only whether that stage was reached and
  whether it succeeded.
-/

namespace GammaLut

/-- Whitespace characters trimmed by s_trim in gamma.c: space, tab, CR, LF. -/
def isSpaceC (c : Char) : Bool :=
  c == ' ' || c == '\t' || c == '\r' || c == '\n'

/-- Model of s_trim (gamma.c lines 128-140): left trim, right trim, then strip
a leading UTF-8 byte-order mark.  On the byte level the BOM is EF BB BF; at the
character level it is the single character U+FEFF. -/
def s_trim (s : List Char) : List Char :=
  let t := ((s.dropWhile isSpaceC).reverse.dropWhile isSpaceC).reverse
  match t with
  | c :: rest => if c.toNat == 0xFEFF then rest else t
  | [] => []

/-- Model of the strpbrk(line, "#;") comment truncation used by every scanner
loop in gamma.c: everything from the first # or ; on is dropped. -/
def strip_comment (s : List Char) : List Char :=
  s.takeWhile (fun c => !(c == '#' || c == ';'))

/-- Section-name extraction shared by the three INI scanners (gamma.c lines
156-165, 194-203, 263-271): for a trimmed line starting with a left bracket,
if a right bracket occurs later in the line the name is the text between the
brackets, truncated to 255 characters (the 256-byte name buffer) and trimmed;
without a right bracket the line is skipped. -/
def section_name (line : List Char) : Option (List Char) :=
  if line.tail.contains ']' then
    some (s_trim ((line.tail.takeWhile (fun c => !(c == ']'))).take 255))
  else none

/-- Key/value split on the first equals sign (gamma.c lines 210-215); lines in
the wanted section without an equals sign are ignored. -/
def split_kv (line : List Char) : Option (List Char × List Char) :=
  if line.contains '=' then
    some (s_trim (line.takeWhile (fun c => !(c == '='))),
          s_trim ((line.dropWhile (fun c => !(c == '='))).tail))
  else none

/-- Numeric value of a decimal digit character. -/
def digVal (c : Char) : ℕ := c.toNat - 48

/-- Value of a list of decimal digits, most significant first. -/
def natOfDigits (l : List Char) : ℕ := l.foldl (fun a c => 10 * a + digVal c) 0

/-- Numeric value of a hexadecimal digit character. -/
def hexVal (c : Char) : ℕ :=
  if c.isDigit then c.toNat - 48
  else if 'a' ≤ c ∧ c ≤ 'f' then c.toNat - 87
  else c.toNat - 55

/-- Value of a list of hexadecimal digits, most significant first. -/
def natOfHexDigits (l : List Char) : ℕ := l.foldl (fun a c => 16 * a + hexVal c) 0

/-- Octal digit test. -/
def isOctDigit (c : Char) : Bool := '0' ≤ c && c ≤ '7'

/-- Hexadecimal digit test. -/
def isHexDigit (c : Char) : Bool :=
  c.isDigit || ('a' ≤ c && c ≤ 'f') || ('A' ≤ c && c ≤ 'F')

/-- Value of a list of octal digits, most significant first. -/
def natOfOctDigits (l : List Char) : ℕ := l.foldl (fun a c => 8 * a + digVal c) 0

/-- Exponent part of strtod: sign and at least one digit after e/E, otherwise
the e/E is not consumed at all (fallback is the unconsumed remainder starting
at the e/E). -/
def expPart (t fallback : List Char) : ℤ × List Char :=
  match t with
  | '-' :: u =>
    if (u.takeWhile Char.isDigit).isEmpty then (0, fallback)
    else (-(natOfDigits (u.takeWhile Char.isDigit) : ℤ), u.dropWhile Char.isDigit)
  | '+' :: u =>
    if (u.takeWhile Char.isDigit).isEmpty then (0, fallback)
    else ((natOfDigits (u.takeWhile Char.isDigit) : ℤ), u.dropWhile Char.isDigit)
  | u =>
    if (u.takeWhile Char.isDigit).isEmpty then (0, fallback)
    else ((natOfDigits (u.takeWhile Char.isDigit) : ℤ), u.dropWhile Char.isDigit)

/-- Model of parse_double_strict (gamma.c lines 87-95): strtod restricted to
decimal forms (optional whitespace and sign, digits with optional fraction,
optional exponent), requiring at least one mantissa digit, requiring the whole
string to be consumed, and producing the exact decimal value
sign * digits * 10 ^ (exponent - fraction length) as a rational.
Hexadecimal floats and the inf/nan forms accepted by strtod are not modelled;
inf and nan would be rejected by the isfinite check anyway. -/
def parse_double_strict (s : List Char) : Option ℚ :=
  let s1 := s.dropWhile isSpaceC
  let signAndRest : Bool × List Char :=
    match s1 with
    | '-' :: t => (true, t)
    | '+' :: t => (false, t)
    | t => (false, t)
  let neg := signAndRest.1
  let s2 := signAndRest.2
  let ip := s2.takeWhile Char.isDigit
  let r1 := s2.dropWhile Char.isDigit
  let fracAndRest : List Char × List Char :=
    match r1 with
    | '.' :: t => (t.takeWhile Char.isDigit, t.dropWhile Char.isDigit)
    | t => ([], t)
  let fp := fracAndRest.1
  let r2 := fracAndRest.2
  if ip.isEmpty && fp.isEmpty then none
  else
    let expAndRest : ℤ × List Char :=
      match r2 with
      | 'e' :: t => expPart t r2
      | 'E' :: t => expPart t r2
      | t => (0, t)
    if expAndRest.2 ≠ [] then none
    else
      let mant : ℤ := natOfDigits (ip ++ fp)
      let sm : ℤ := if neg then -mant else mant
      let t : ℤ := expAndRest.1 - fp.length
      if 0 ≤ t then some (mkRat (sm * 10 ^ t.toNat) 1)
      else some (mkRat sm (10 ^ (-t).toNat))

/-- Model of parse_uint32 (gamma.c lines 78-85): strtoul with base 0 on a
64-bit platform (optional whitespace and sign, 0x/0X hex or leading-0 octal or
decimal digits), rejecting when no digits were consumed, when the magnitude
overflows unsigned long (errno = ERANGE), or when trailing characters remain;
the unsigned long result is then truncated to uint32_t. -/
def parse_uint32 (s : List Char) : Option ℕ :=
  let s1 := s.dropWhile isSpaceC
  let signAndRest : Bool × List Char :=
    match s1 with
    | '-' :: t => (true, t)
    | '+' :: t => (false, t)
    | t => (false, t)
  let neg := signAndRest.1
  let s2 := signAndRest.2
  let magAndRest : Option (ℕ × List Char) :=
    match s2 with
    | '0' :: x :: t =>
      if x == 'x' || x == 'X' then
        let h := t.takeWhile isHexDigit
        if h.isEmpty then some (0, x :: t)
        else some (natOfHexDigits h, t.dropWhile isHexDigit)
      else
        let o := (x :: t).takeWhile isOctDigit
        some (natOfOctDigits o, (x :: t).dropWhile isOctDigit)
    | '0' :: [] => some (0, [])
    | t =>
      let d := t.takeWhile Char.isDigit
      if d.isEmpty then none else some (natOfDigits d, t.dropWhile Char.isDigit)
  match magAndRest with
  | none => none
  | some (v, rest) =>
    if rest ≠ [] then none
    else if v > 2 ^ 64 - 1 then none
    else some ((if neg then (2 ^ 64 - v % 2 ^ 64) % 2 ^ 64 else v) % 2 ^ 32)

/-- Declared parameter ranges (gamma.c lines 44-51), as exact rationals
(0.20 and the other decimal constants are exactly representable). -/
def GAMMA_MIN : ℚ := mkRat 20 100
/-- Upper gamma bound. -/
def GAMMA_MAX : ℚ := mkRat 500 100
/-- Lower lift bound. -/
def LIFT_MIN : ℚ := mkRat (-50) 100
/-- Upper lift bound. -/
def LIFT_MAX : ℚ := mkRat 50 100
/-- Lower gain bound. -/
def GAIN_MIN : ℚ := mkRat 50 100
/-- Upper gain bound. -/
def GAIN_MAX : ℚ := mkRat 150 100
/-- Lower channel-multiplier bound. -/
def MULT_MIN : ℚ := mkRat 50 100
/-- Upper channel-multiplier bound. -/
def MULT_MAX : ℚ := mkRat 150 100

/-- Error produced by parse_double_in_range: either the text did not parse as
a finite double, or the value fell outside the closed range; both messages
name the offending field. -/
inductive ParseErr where
  | invalid (label : String)
  | out_of_range (label : String)
deriving DecidableEq

/-- Result of parse_double_in_range. -/
inductive PRes where
  | okv (v : ℚ)
  | bad (e : ParseErr)
deriving DecidableEq

/-- Model of parse_double_in_range (gamma.c lines 97-111): strict parse, then
reject values below the minimum or above the maximum; in-range values are
returned exactly as parsed, never clamped. -/
def parse_double_in_range (label : String) (s : List Char) (minv maxv : ℚ) : PRes :=
  match parse_double_strict s with
  | none => .bad (.invalid label)
  | some v => if v < minv ∨ v > maxv then .bad (.out_of_range label) else .okv v

/-- Model of struct preset_vals (gamma.c lines 121-126); memset-to-zero
initialisation corresponds to pv0 below. -/
structure preset_vals where
  have_gamma : Bool
  have_lift : Bool
  have_gain : Bool
  have_r : Bool
  have_g : Bool
  have_b : Bool
  gamma : ℚ
  lift : ℚ
  gain : ℚ
  r : ℚ
  g : ℚ
  b : ℚ
  have_crtc : Bool
  crtc : ℕ
deriving DecidableEq

/-- Zero-initialised preset_vals (the memset in load_preset, line 314). -/
def pv0 : preset_vals :=
  ⟨false, false, false, false, false, false, 0, 0, 0, 0, 0, 0, false, 0⟩

/-- Return status of the INI loaders: loaded (1), not found (0),
parse error (-1). -/
inductive IniStatus where
  | loaded
  | notfound
  | perror
deriving DecidableEq

/-- File contents as a list of lines (each a list of characters). -/
def IniFile := List (List Char)

/-- Read-only filesystem abstraction: path to readable file contents; none
models fopen/access failure. -/
def FS := String → Option IniFile

/-- Single step of the key dispatch in load_preset_from_file (gamma.c lines
217-241): a recognised key either updates the struct and sets status to
loaded, or fails its range check and aborts with a parse error; unknown keys
are ignored.  Returns none for the abort case. -/
def preset_apply_key (pv : preset_vals) (key val : List Char) :
    Option (preset_vals × Bool) :=
  if key = "gamma".toList then
    match parse_double_in_range "gamma" val GAMMA_MIN GAMMA_MAX with
    | .okv v => some ({ pv with gamma := v, have_gamma := true }, true)
    | .bad _ => none
  else if key = "lift".toList then
    match parse_double_in_range "lift" val LIFT_MIN LIFT_MAX with
    | .okv v => some ({ pv with lift := v, have_lift := true }, true)
    | .bad _ => none
  else if key = "gain".toList then
    match parse_double_in_range "gain" val GAIN_MIN GAIN_MAX with
    | .okv v => some ({ pv with gain := v, have_gain := true }, true)
    | .bad _ => none
  else if key = "r".toList then
    match parse_double_in_range "r" val MULT_MIN MULT_MAX with
    | .okv v => some ({ pv with r := v, have_r := true }, true)
    | .bad _ => none
  else if key = "g".toList then
    match parse_double_in_range "g" val MULT_MIN MULT_MAX with
    | .okv v => some ({ pv with g := v, have_g := true }, true)
    | .bad _ => none
  else if key = "b".toList then
    match parse_double_in_range "b" val MULT_MIN MULT_MAX with
    | .okv v => some ({ pv with b := v, have_b := true }, true)
    | .bad _ => none
  else if key = "crtc".toList then
    match parse_uint32 val with
    | some u => some ({ pv with crtc := u, have_crtc := true }, true)
    | none => none
  else
    some (pv, false)

/-- Line loop of load_preset_from_file (gamma.c lines 188-242).  The Bool
argument is the wanted flag (whether the current section name equals the
wanted one); the status starts at notfound, becomes loaded on the first
successfully parsed recognised key, and a failed range or crtc parse aborts
the scan with perror (the break). -/
def load_preset_lines (want : List Char) :
    List (List Char) → Bool → IniStatus → preset_vals → IniStatus × preset_vals
  | [], _, st, pv => (st, pv)
  | l :: ls, wanted, st, pv =>
    let line := s_trim (strip_comment l)
    if line = [] then load_preset_lines want ls wanted st pv
    else if line.head? = some '[' then
      match section_name line with
      | some nm => load_preset_lines want ls (nm = want) st pv
      | none => load_preset_lines want ls wanted st pv
    else if wanted then
      match split_kv line with
      | none => load_preset_lines want ls wanted st pv
      | some (key, val) =>
        match preset_apply_key pv key val with
        | none => (.perror, pv)
        | some (pv2, hit) =>
          load_preset_lines want ls wanted (if hit then .loaded else st) pv2
    else load_preset_lines want ls wanted st pv

/-- Model of load_preset_from_file (gamma.c lines 179-246): unreadable file is
not-found; otherwise scan the lines with the wanted flag initially false. -/
def load_preset_from_file (fs : FS) (path : String) (want : List Char)
    (pv : preset_vals) : IniStatus × preset_vals :=
  match fs path with
  | none => (.notfound, pv)
  | some lines => load_preset_lines want lines false .notfound pv

/-- Neutral values of the built-in reset preset (gamma.c lines 316-319). -/
def reset_pv : preset_vals :=
  ⟨true, true, true, true, true, true, 1, 0, 1, 1, 1, 1, false, 0⟩

/-- Model of load_preset (gamma.c lines 313-330): the name reset is resolved
to the built-in neutral preset without touching any file; with an explicit
--presets path only that file is consulted; otherwise ./presets.ini is tried
and, only when it reports not-found, /etc/gamma-presets.ini. -/
def load_preset (fs : FS) (name : List Char) (preset_path : Option String) :
    IniStatus × preset_vals :=
  if name = "reset".toList then (.loaded, reset_pv)
  else
    match preset_path with
    | some p => load_preset_from_file fs p name pv0
    | none =>
      let r := load_preset_from_file fs "./presets.ini" name pv0
      if r.1 ≠ .notfound then r
      else load_preset_from_file fs "/etc/gamma-presets.ini" name r.2

/-- Line loop of load_config_crtc_from_file (gamma.c lines 257-297): inside
the config section, the first crtc key decides the result (break), whether its
value parses (loaded) or not (perror); other keys and sections are skipped. -/
def load_config_lines : List (List Char) → Bool → IniStatus × Option ℕ
  | [], _ => (.notfound, none)
  | l :: ls, in_config =>
    let line := s_trim (strip_comment l)
    if line = [] then load_config_lines ls in_config
    else if line.head? = some '[' then
      match section_name line with
      | some nm => load_config_lines ls (nm = "config".toList)
      | none => load_config_lines ls in_config
    else if in_config then
      match split_kv line with
      | none => load_config_lines ls in_config
      | some (key, val) =>
        if key = "crtc".toList then
          match parse_uint32 val with
          | some u => (.loaded, some u)
          | none => (.perror, none)
        else load_config_lines ls in_config
    else load_config_lines ls in_config

/-- Model of load_config_crtc_from_file (gamma.c lines 249-301). -/
def load_config_crtc_from_file (fs : FS) (path : String) : IniStatus × Option ℕ :=
  match fs path with
  | none => (.notfound, none)
  | some lines => load_config_lines lines false

/-- Model of load_config_crtc (gamma.c lines 303-311): explicit path only,
else ./presets.ini and, only when it reports not-found,
/etc/gamma-presets.ini. -/
def load_config_crtc (fs : FS) (preset_path : Option String) : IniStatus × Option ℕ :=
  match preset_path with
  | some p => load_config_crtc_from_file fs p
  | none =>
    let r := load_config_crtc_from_file fs "./presets.ini"
    if r.1 ≠ .notfound then r
    else load_config_crtc_from_file fs "/etc/gamma-presets.ini"

/-- Line loop of list_presets_from_file (gamma.c lines 151-173): the printed
preset names, in file order; a section header line contributes its name when
the name is nonempty and is not the reserved name config. -/
def list_lines : List (List Char) → List (List Char)
  | [] => []
  | l :: ls =>
    let line := s_trim (strip_comment l)
    if line = [] then list_lines ls
    else if line.head? = some '[' then
      match section_name line with
      | some nm =>
        if nm ≠ [] ∧ nm ≠ "config".toList then nm :: list_lines ls
        else list_lines ls
      | none => list_lines ls
    else list_lines ls

/-- Model of list_presets_from_file (gamma.c lines 146-176), keeping only the
names printed (the header and count are presentation). -/
def list_presets_from_file (fs : FS) (path : String) : List (List Char) :=
  match fs path with
  | none => []
  | some lines => list_lines lines

/-- Model of list_all_presets (gamma.c lines 332-350): names from the explicit
file, or from ./presets.ini then /etc/gamma-presets.ini, followed by the
built-in name reset; the No-presets-found message is presentation only.  The
file_exists pre-check coincides with fopen success in the FS model. -/
def list_all_presets (fs : FS) (preset_path : Option String) : List (List Char) :=
  (match preset_path with
   | some p => list_presets_from_file fs p
   | none =>
     list_presets_from_file fs "./presets.ini" ++
     list_presets_from_file fs "/etc/gamma-presets.ini") ++ ["reset".toList]

/-- Result of the numeric positional-argument path of main (gamma.c lines
506-522): six resolved parameters, an arity error (argument count outside
1..6), or a parse/range failure naming the field. -/
inductive NumResult where
  | resolved (gp lift gain r g b : ℚ)
  | arity (n : ℕ)
  | failed (e : ParseErr)
deriving DecidableEq

/-- Model of the numeric path of main (gamma.c lines 506-522): gp is the
already-parsed first positional (parse_double_strict succeeded on it), rest
the remaining positionals.  Arity is checked first, then the gamma range, then
each optional argument in order lift, gain, r, g, b through
parse_double_in_range, stopping at the first failure; unsupplied arguments
keep the defaults lift=0, gain=1, r=g=b=1. -/
def resolve_numeric (gp : ℚ) (rest : List (List Char)) : NumResult :=
  if 6 < 1 + rest.length then .arity (1 + rest.length)
  else if gp < GAMMA_MIN ∨ gp > GAMMA_MAX then .failed (.out_of_range "gamma")
  else
    match rest with
    | [] => .resolved gp 0 1 1 1 1
    | a1 :: rest1 =>
      match parse_double_in_range "lift" a1 LIFT_MIN LIFT_MAX with
      | .bad e => .failed e
      | .okv lift =>
        match rest1 with
        | [] => .resolved gp lift 1 1 1 1
        | a2 :: rest2 =>
          match parse_double_in_range "gain" a2 GAIN_MIN GAIN_MAX with
          | .bad e => .failed e
          | .okv gain =>
            match rest2 with
            | [] => .resolved gp lift gain 1 1 1
            | a3 :: rest3 =>
              match parse_double_in_range "r" a3 MULT_MIN MULT_MAX with
              | .bad e => .failed e
              | .okv r =>
                match rest3 with
                | [] => .resolved gp lift gain r 1 1
                | a4 :: rest4 =>
                  match parse_double_in_range "g" a4 MULT_MIN MULT_MAX with
                  | .bad e => .failed e
                  | .okv g =>
                    match rest4 with
                    | [] => .resolved gp lift gain r g 1
                    | a5 :: _ =>
                      match parse_double_in_range "b" a5 MULT_MIN MULT_MAX with
                      | .bad e => .failed e
                      | .okv b => .resolved gp lift gain r g b

/-- Terminal error classes of main, used to tell the distinct exit-2 messages
apart in the model. -/
inductive MainErr where
  | bad_config_crtc
  | list_positional
  | missing_args
  | bad_arity (n : ℕ)
  | bad_value (e : ParseErr)
  | preset_not_found
  | preset_parse_error
  | preset_missing_gamma
  | hw_failed
deriving DecidableEq

/-- Observable outcome of a run: process exit code, error class (none on
success), preset names printed, and whether the DRM stage (device open and
atomic commit) was reached. -/
structure Outcome where
  exit_code : ℕ
  err : Option MainErr
  printed : List (List Char)
  hw : Bool
deriving DecidableEq

/-- Command-line options after the option-parsing loop of main (gamma.c lines
442-477), which is plain flag dispatch: the validated --crtc value if given,
the --presets path if given, and whether --list was seen. -/
structure CliOpts where
  crtc_override : Option ℕ
  preset_path : Option String
  list_mode : Bool

/-- Main flow after the config-crtc step (gamma.c lines 486-544): list mode
forbids positionals and prints the listing; otherwise the first positional
selects the numeric path (when it parses as a double) or the preset path.  A
preset that is not found prints the full listing as remediation.  hw_ok
abstracts the DRM stage: reaching it yields exit 0 on success, 1 on failure
(gamma.c lines 546-563). -/
def main_after_crtc (fs : FS) (opts : CliOpts) (pos : List (List Char))
    (hw_ok : Bool) : Outcome :=
  if opts.list_mode then
    if pos = [] then ⟨0, none, list_all_presets fs opts.preset_path, false⟩
    else ⟨2, some .list_positional, [], false⟩
  else
    match pos with
    | [] => ⟨2, some .missing_args, [], false⟩
    | first :: rest =>
      match parse_double_strict first with
      | some gp =>
        match resolve_numeric gp rest with
        | .resolved _ _ _ _ _ _ =>
          if hw_ok then ⟨0, none, [], true⟩ else ⟨1, some .hw_failed, [], true⟩
        | .arity n => ⟨2, some (.bad_arity n), [], false⟩
        | .failed e => ⟨2, some (.bad_value e), [], false⟩
      | none =>
        match load_preset fs first opts.preset_path with
        | (.notfound, _) =>
          ⟨2, some .preset_not_found, list_all_presets fs opts.preset_path, false⟩
        | (.perror, _) => ⟨2, some .preset_parse_error, [], false⟩
        | (.loaded, pv) =>
          if pv.have_gamma then
            if hw_ok then ⟨0, none, [], true⟩ else ⟨1, some .hw_failed, [], true⟩
          else ⟨2, some .preset_missing_gamma, [], false⟩

/-- Model of main after option parsing (gamma.c lines 479-563): when no --crtc
override was given, the config-section crtc is looked up first, and a parse
error there terminates the run with exit 2 before anything else (including
--list); then the flow continues in main_after_crtc.  The resolved crtc value
itself only feeds the DRM stage, which is abstracted by hw_ok. -/
def main_model (fs : FS) (opts : CliOpts) (pos : List (List Char))
    (hw_ok : Bool) : Outcome :=
  match opts.crtc_override with
  | some _ => main_after_crtc fs opts pos hw_ok
  | none =>
    match (load_config_crtc fs opts.preset_path).1 with
    | .perror => ⟨2, some .bad_config_crtc, [], false⟩
    | _ => main_after_crtc fs opts pos hw_ok

/-- Clamp to the unit interval, as the fmax/fmin pair on the channel values
(gamma.c lines 397-399) and the equivalent if-chain on y (lines 394-395). -/
noncomputable def clamp01 (v : ℝ) : ℝ := max 0 (min 1 v)

/-- Model of u16clamp (gamma.c lines 113-117): negative values clamp to 0,
values above 65535 clamp to 65535, otherwise the uint16_t cast of x + 0.5
truncates, i.e. takes the floor. -/
noncomputable def u16clamp (x : ℝ) : ℕ :=
  if x < 0 then 0 else if x > 65535 then 65535 else (⌊x + 1/2⌋).toNat

/-- Parameters handed to set_gamma_lut (gamma.c lines 354-360). -/
structure GammaParams where
  gamma_pow : ℝ
  lift : ℝ
  gain : ℝ
  r_mult : ℝ
  g_mult : ℝ
  b_mult : ℝ

/-- One entry of struct drm_color_lut, 16-bit channels as naturals. -/
structure LutEntry where
  red : ℕ
  green : ℕ
  blue : ℕ
deriving DecidableEq

/-- Declared ranges of the six semantic parameters (gamma.c lines 44-51). -/
def params_in_range (p : GammaParams) : Prop :=
  (0.20 ≤ p.gamma_pow ∧ p.gamma_pow ≤ 5.00) ∧
  (-0.50 ≤ p.lift ∧ p.lift ≤ 0.50) ∧
  (0.50 ≤ p.gain ∧ p.gain ≤ 1.50) ∧
  (0.50 ≤ p.r_mult ∧ p.r_mult ≤ 1.50) ∧
  (0.50 ≤ p.g_mult ∧ p.g_mult ≤ 1.50) ∧
  (0.50 ≤ p.b_mult ∧ p.b_mult ≤ 1.50)

/-- Base of the power curve at index i of an N-entry table: fmax(0, x + lift)
with x = i/(N-1) (gamma.c lines 392-393).  When N = 1 the C expression for x
is 0.0/0.0, which is NaN under IEEE-754; fmax(0.0, NaN) returns the non-NaN
operand 0.0, so the base is 0 in that case, independent of lift. -/
noncomputable def lut_base (N i : ℕ) (lift : ℝ) : ℝ :=
  if N = 1 then 0 else max 0 ((i : ℝ) / ((N : ℝ) - 1) + lift)

/-- Luminance value y at index i (gamma.c lines 393-395): the power curve
scaled by gain and clamped to the unit interval. -/
noncomputable def lut_y (p : GammaParams) (N i : ℕ) : ℝ :=
  clamp01 (lut_base N i p.lift ^ p.gamma_pow * p.gain)

/-- Quantised channel value (gamma.c lines 397-403): y scaled by the channel
multiplier, clamped to the unit interval, scaled to 16 bits and rounded. -/
noncomputable def lut_channel (p : GammaParams) (N i : ℕ) (mult : ℝ) : ℕ :=
  u16clamp (clamp01 (lut_y p N i * mult) * 65535)

/-- Table entry at index i (gamma.c lines 401-403). -/
noncomputable def lut_entry (p : GammaParams) (N i : ℕ) : LutEntry :=
  ⟨lut_channel p N i p.r_mult, lut_channel p N i p.g_mult,
   lut_channel p N i p.b_mult⟩

/-- Table synthesis of set_gamma_lut (gamma.c lines 391-404): the loop filling
the N-entry lookup table.  The surrounding DRM property lookup, blob creation
and atomic commit are opaque I/O and are abstracted in main_model. -/
noncomputable def set_gamma_lut (p : GammaParams) (N : ℕ) : List LutEntry :=
  (List.range N).map (lut_entry p N)

/-- Parameter assembly of the preset path of main (gamma.c lines 538-543):
gamma is taken from the preset (it is mandatory there); each optional field
falls back to its default when absent. -/
noncomputable def pv_params (pv : preset_vals) : GammaParams :=
  ⟨(pv.gamma : ℝ),
   if pv.have_lift then (pv.lift : ℝ) else 0,
   if pv.have_gain then (pv.gain : ℝ) else 1,
   if pv.have_r then (pv.r : ℝ) else 1,
   if pv.have_g then (pv.g : ℝ) else 1,
   if pv.have_b then (pv.b : ℝ) else 1⟩

/-- Channel value as written in the specification, for a table of length
N ≥ 2: round(clamp01(clamp01(max(0, i/(N-1) + lift)^gamma * gain) *
multiplier) * 65535). -/
noncomputable def spec_entry (p : GammaParams) (N i : ℕ) (mult : ℝ) : ℕ :=
  (round (clamp01 (clamp01
      (max 0 ((i : ℝ) / ((N : ℝ) - 1) + p.lift) ^ p.gamma_pow * p.gain)
      * mult) * 65535)).toNat

/-- Channel value as written in the specification for the single entry of a
length-1 table, at normalized position x = 0:
round(clamp01(clamp01(max(0, lift)^gamma * gain) * multiplier) * 65535). -/
noncomputable def spec_entry_one (p : GammaParams) (mult : ℝ) : ℕ :=
  (round (clamp01 (clamp01
      (max 0 p.lift ^ p.gamma_pow * p.gain) * mult) * 65535)).toNat

/-- Identity-map entry value of the specification: round(i/(N-1) * 65535). -/
noncomputable def identity_entry (N i : ℕ) : ℕ :=
  (round ((i : ℝ) / ((N : ℝ) - 1) * 65535)).toNat

/-- Resource search order of the specification: the explicit file alone, or
the project-local resource then the system-wide resource. -/
def search_order (preset_path : Option String) : List String :=
  match preset_path with
  | some p => [p]
  | none => ["./presets.ini", "/etc/gamma-presets.ini"]

/-- Name of the section header on a raw line, if the line is one: the
specification-side notion of a section name occurring in a file (a section
with an empty name has no name). -/
def section_header_name (l : List Char) : Option (List Char) :=
  let line := s_trim (strip_comment l)
  if line.head? = some '[' then
    match section_name line with
    | some nm => if nm = [] then none else some nm
    | none => none
  else none

/-- Section names of a file, in file order, on the specification side. -/
def file_sections (fs : FS) (p : String) : List (List Char) :=
  match fs p with
  | none => []
  | some lines => lines.filterMap section_header_name

/-- Listing as written in the specification: every section name across the
resource search order, excluding the reserved name config, in file order, with
the built-in name reset last, one occurrence per file. -/
def spec_listing (fs : FS) (preset_path : Option String) : List (List Char) :=
  (search_order preset_path).flatMap
    (fun p => (file_sections fs p).filter (fun nm => nm ≠ "config".toList)) ++
  ["reset".toList]

/-- First resource file in the search order. -/
def first_resource (preset_path : Option String) : String :=
  (search_order preset_path).headD "./presets.ini"

/-- Membership of a section with a given name in a file, on the specification
side: used to state the first-match claim about preset resolution. -/
def contains_section (lines : IniFile) (nm : List Char) : Bool :=
  (lines.filterMap section_header_name).contains nm

/-- Outcome of a run rejected by a field validation error: exit code 2, the
error naming the field, nothing printed, no hardware interaction. -/
def reject_outcome (e : ParseErr) : Outcome := ⟨2, some (.bad_value e), [], false⟩

/-- Filesystem with no readable resource file. -/
def fs_empty : FS := fun _ => none

/-- Fixture: a file whose warm section is present but holds no keys. -/
def warm_f1 : IniFile := ["[warm]".toList]

/-- Fixture: a file whose warm section carries a valid gamma key. -/
def warm_f2 : IniFile := ["[warm]".toList, "gamma=2".toList]

/-- Fixture filesystem: the project-local resource has an empty warm section,
the system-wide resource a complete one. -/
def warm_fs : FS := fun p =>
  if p = "./presets.ini" then some warm_f1
  else if p = "/etc/gamma-presets.ini" then some warm_f2 else none

/-- Fixture filesystem: only the project-local resource exists and its warm
section carries a valid gamma key. -/
def warm_fsB : FS := fun p => if p = "./presets.ini" then some warm_f2 else none

/-- Fixture filesystem: the project-local resource has a config section whose
crtc value does not parse as an integer. -/
def bad_crtc_fs : FS := fun p =>
  if p = "./presets.ini" then some ["[config]".toList, "crtc=zero".toList]
  else none

/-- Fixture filesystem: the project-local resource has a warm section with a
valid lift key but no gamma key. -/
def no_gamma_fs : FS := fun p =>
  if p = "./presets.ini" then some ["[warm]".toList, "lift=0.1".toList]
  else none

/-- Concrete in-range parameter set with a positive lift, used to exercise the
length-1 table. -/
noncomputable def c4_params : GammaParams := ⟨1, 0.5, 1, 1, 1, 1⟩

/-- Neutral in-range parameter set. -/
noncomputable def neutral_params : GammaParams := ⟨1, 0, 1, 1, 1, 1⟩

/-! Helper lemmas. -/

theorem clamp01_nonneg (v : ℝ) : 0 ≤ clamp01 v := le_max_left 0 _

theorem clamp01_le_one (v : ℝ) : clamp01 v ≤ 1 :=
  max_le zero_le_one (min_le_left 1 v)

theorem clamp01_eq_self {v : ℝ} (h0 : 0 ≤ v) (h1 : v ≤ 1) : clamp01 v = v := by
  unfold clamp01
  rw [min_eq_right h1, max_eq_right h0]

theorem clamp01_mono {a b : ℝ} (h : a ≤ b) : clamp01 a ≤ clamp01 b :=
  max_le_max le_rfl (min_le_min le_rfl h)

theorem u16clamp_eq_round {x : ℝ} (h0 : 0 ≤ x) (h1 : x ≤ 65535) :
    u16clamp x = (round x).toNat := by
  unfold u16clamp
  rw [if_neg (not_lt.mpr h0), if_neg (not_lt.mpr h1), round_eq]

theorem u16clamp_le (x : ℝ) : u16clamp x ≤ 65535 := by
  unfold u16clamp
  split_ifs with h1 h2
  · exact Nat.zero_le _
  · exact le_rfl
  · rw [Int.toNat_le]
    have hx : x ≤ 65535 := not_lt.mp h2
    rw [Int.floor_le_iff]
    push_cast
    linarith

theorem set_gamma_lut_length (p : GammaParams) (N : ℕ) :
    (set_gamma_lut p N).length = N := by
  simp [set_gamma_lut]

theorem set_gamma_lut_getElem (p : GammaParams) (N i : ℕ) (hi : i < N) :
    (set_gamma_lut p N)[i]? = some (lut_entry p N i) := by
  simp [set_gamma_lut, hi]

theorem lut_channel_eq_spec (p : GammaParams) {N : ℕ} (i : ℕ) (hN : 2 ≤ N)
    (m : ℝ) : lut_channel p N i m = spec_entry p N i m := by
  have hN1 : N ≠ 1 := by omega
  have h0 := clamp01_nonneg (lut_y p N i * m)
  have h1 := clamp01_le_one (lut_y p N i * m)
  unfold lut_channel
  rw [u16clamp_eq_round (mul_nonneg h0 (by norm_num)) (by linarith)]
  unfold spec_entry lut_y lut_base
  rw [if_neg hN1]

/-- C1: for every parameter set within the declared ranges and every table
length N ≥ 2, the synthesized table has exactly N entries, and for every
index i below N, entry i's channel c equals the 16-bit value
round(clamp01(clamp01(max(0, i/(N-1) + lift)^gamma * gain) * multiplier_c)
* 65535). -/
theorem table_matches_spec_formula (p : GammaParams) (hp : params_in_range p)
    (N : ℕ) (hN : 2 ≤ N) :
    (set_gamma_lut p N).length = N ∧
    ∀ i, i < N → (set_gamma_lut p N)[i]? =
      some ⟨spec_entry p N i p.r_mult, spec_entry p N i p.g_mult,
            spec_entry p N i p.b_mult⟩ := by
  refine ⟨set_gamma_lut_length p N, fun i hi => ?_⟩
  rw [set_gamma_lut_getElem p N i hi]
  unfold lut_entry
  rw [lut_channel_eq_spec p i hN, lut_channel_eq_spec p i hN,
    lut_channel_eq_spec p i hN]

/-- Witness for C1: the neutral in-range parameters with a table of length
two. -/
theorem table_matches_spec_formula_witness :
    params_in_range neutral_params ∧ 2 ≤ 2 ∧
    ((set_gamma_lut neutral_params 2).length = 2 ∧
     ∀ i, i < 2 → (set_gamma_lut neutral_params 2)[i]? =
       some ⟨spec_entry neutral_params 2 i neutral_params.r_mult,
             spec_entry neutral_params 2 i neutral_params.g_mult,
             spec_entry neutral_params 2 i neutral_params.b_mult⟩) :=
  ⟨by norm_num [params_in_range, neutral_params], by norm_num,
   table_matches_spec_formula neutral_params
     (by norm_num [params_in_range, neutral_params]) 2 (by norm_num)⟩

/-- C5: for every in-range parameter set and every table length N ≥ 1, every
synthesized entry value lies in [0, 65535].  The embedding is total over ℝ, so
no entry is NaN: the single NaN hazard of the C code, the 0/0 position when
N = 1, is modelled explicitly in lut_base (fmax absorbs the NaN to 0), and
every other intermediate value is a real number since the power base is
floored at 0 before exponentiation. -/
theorem table_entries_bounded (p : GammaParams) (hp : params_in_range p)
    (N : ℕ) (hN : 1 ≤ N) :
    ∀ e ∈ set_gamma_lut p N,
      (0 ≤ e.red ∧ e.red ≤ 65535) ∧ (0 ≤ e.green ∧ e.green ≤ 65535) ∧
      (0 ≤ e.blue ∧ e.blue ≤ 65535) := by
  intro e he
  simp only [set_gamma_lut, List.mem_map, List.mem_range] at he
  obtain ⟨i, hi, rfl⟩ := he
  refine ⟨⟨Nat.zero_le _, ?_⟩, ⟨Nat.zero_le _, ?_⟩, ⟨Nat.zero_le _, ?_⟩⟩ <;>
    simp only [lut_entry, lut_channel] <;> exact u16clamp_le _

/-- Witness for C5: the neutral in-range parameters with a table of length
one. -/
theorem table_entries_bounded_witness :
    params_in_range neutral_params ∧ 1 ≤ 1 ∧
    ∀ e ∈ set_gamma_lut neutral_params 1,
      (0 ≤ e.red ∧ e.red ≤ 65535) ∧ (0 ≤ e.green ∧ e.green ≤ 65535) ∧
      (0 ≤ e.blue ∧ e.blue ≤ 65535) :=
  ⟨by norm_num [params_in_range, neutral_params], le_rfl,
   table_entries_bounded neutral_params
     (by norm_num [params_in_range, neutral_params]) 1 le_rfl⟩

/-- C7: for every gamma in [0.20, 5.00], with lift 0 and gain 1 and every
N ≥ 2, the synthesized table has exactly N entries and the luminance value y
is monotonically non-decreasing in the index. -/
theorem luminance_monotone (γ r g b : ℝ) (hγl : 0.20 ≤ γ) (hγu : γ ≤ 5.00)
    (N : ℕ) (hN : 2 ≤ N) :
    (set_gamma_lut ⟨γ, 0, 1, r, g, b⟩ N).length = N ∧
    ∀ i j : ℕ, i ≤ j → j < N →
      lut_y ⟨γ, 0, 1, r, g, b⟩ N i ≤ lut_y ⟨γ, 0, 1, r, g, b⟩ N j := by
  refine ⟨set_gamma_lut_length _ N, fun i j hij hj => ?_⟩
  have hN1 : N ≠ 1 := by omega
  have hc : (0:ℝ) < (N:ℝ) - 1 := by
    have h2 : (2:ℝ) ≤ (N:ℝ) := by exact_mod_cast hN
    linarith
  unfold lut_y lut_base
  dsimp only
  rw [if_neg hN1, if_neg hN1]
  apply clamp01_mono
  rw [mul_one, mul_one]
  have hdiv : (i:ℝ) / ((N:ℝ) - 1) + 0 ≤ (j:ℝ) / ((N:ℝ) - 1) + 0 := by
    rw [add_zero, add_zero]
    exact (div_le_div_right hc).mpr (by exact_mod_cast hij)
  exact Real.rpow_le_rpow (le_max_left 0 _) (max_le_max le_rfl hdiv)
    (by linarith)

/-- Witness for C7: gamma 1, neutral multipliers, table of length two. -/
theorem luminance_monotone_witness :
    (0.20:ℝ) ≤ 1 ∧ (1:ℝ) ≤ 5.00 ∧ (2:ℕ) ≤ 2 ∧
    ((set_gamma_lut ⟨1, 0, 1, 1, 1, 1⟩ 2).length = 2 ∧
     ∀ i j : ℕ, i ≤ j → j < 2 →
       lut_y ⟨1, 0, 1, 1, 1, 1⟩ 2 i ≤ lut_y ⟨1, 0, 1, 1, 1, 1⟩ 2 j) :=
  ⟨by norm_num, by norm_num, le_rfl,
   luminance_monotone 1 1 1 1 (by norm_num) (by norm_num) 2 le_rfl⟩

theorem u16clamp_zero : u16clamp 0 = 0 := by
  unfold u16clamp
  rw [if_neg (lt_irrefl 0), if_neg (by norm_num : ¬ (0:ℝ) > 65535), zero_add]
  rw [show ⌊(1/2 : ℝ)⌋ = 0 from Int.floor_eq_zero_iff.mpr ⟨by norm_num, by norm_num⟩]
  rfl

theorem lut_channel_one (p : GammaParams) (hγ : p.gamma_pow ≠ 0) (m : ℝ) :
    lut_channel p 1 0 m = 0 := by
  unfold lut_channel lut_y lut_base
  rw [if_pos rfl, Real.zero_rpow hγ, zero_mul,
    clamp01_eq_self le_rfl zero_le_one, zero_mul,
    clamp01_eq_self le_rfl zero_le_one, zero_mul, u16clamp_zero]

theorem lut_one_zero (p : GammaParams) (hγ : p.gamma_pow ≠ 0) :
    set_gamma_lut p 1 = [⟨0, 0, 0⟩] := by
  unfold set_gamma_lut
  rw [show List.range 1 = [0] from rfl, List.map_cons, List.map_nil]
  unfold lut_entry
  rw [lut_channel_one p hγ, lut_channel_one p hγ, lut_channel_one p hγ]

/-- C4 counterexample: at gamma 1, lift 0.5, gain 1, multipliers 1 (all in
range) and N = 1, the code produces the single entry (0, 0, 0) — the 0/0
position is NaN, absorbed to base 0 by fmax — while the claimed formula at
x = 0 yields round(0.5 * 65535) = 32768 in every channel. -/
theorem length_one_claim_counterexample :
    params_in_range c4_params ∧
    (set_gamma_lut c4_params 1)[0]? = some ⟨0, 0, 0⟩ ∧
    spec_entry_one c4_params 1 = 32768 ∧
    (set_gamma_lut c4_params 1)[0]? ≠
      some ⟨spec_entry_one c4_params 1, spec_entry_one c4_params 1,
            spec_entry_one c4_params 1⟩ := by
  have hγ : c4_params.gamma_pow ≠ 0 := by norm_num [c4_params]
  have hentry : (set_gamma_lut c4_params 1)[0]? = some ⟨0, 0, 0⟩ := by
    rw [lut_one_zero c4_params hγ]
    rfl
  have hspec : spec_entry_one c4_params 1 = 32768 := by
    have hhalf : clamp01 (0.5:ℝ) = 0.5 :=
      clamp01_eq_self (by norm_num) (by norm_num)
    unfold spec_entry_one c4_params
    dsimp only
    rw [max_eq_right (by norm_num : (0:ℝ) ≤ 0.5), Real.rpow_one, mul_one,
      mul_one, hhalf, hhalf,
      show ((0.5:ℝ) * 65535) = 32767.5 by norm_num, round_eq,
      show ((32767.5:ℝ) + 1/2) = ((32768:ℤ):ℝ) by norm_num, Int.floor_intCast]
    rfl
  refine ⟨by norm_num [params_in_range, c4_params], hentry, hspec, ?_⟩
  rw [hentry, hspec]
  decide

/-- C4 amended: when N = 1, synthesis produces exactly one entry, and because
the C expression for the normalized position is 0.0/0.0 (NaN, absorbed to a
power base of 0 by fmax) and gamma is positive, every channel of that entry is
0 — not the value of the claimed formula at x = 0, which would apply the lift
before exponentiation. -/
theorem table_length_one (p : GammaParams) (hp : params_in_range p) :
    set_gamma_lut p 1 = [⟨0, 0, 0⟩] := by
  have hγ : p.gamma_pow ≠ 0 := by
    have h := hp.1.1
    intro h0
    rw [h0] at h
    norm_num at h
  exact lut_one_zero p hγ

/-- Witness for the amended C4: the neutral in-range parameters. -/
theorem table_length_one_witness :
    params_in_range neutral_params ∧
    set_gamma_lut neutral_params 1 = [⟨0, 0, 0⟩] :=
  ⟨by norm_num [params_in_range, neutral_params],
   table_length_one neutral_params
     (by norm_num [params_in_range, neutral_params])⟩

theorem lut_channel_neutral {N : ℕ} (i : ℕ) (hN : 2 ≤ N) (hi : i < N) :
    lut_channel ⟨1, 0, 1, 1, 1, 1⟩ N i 1 = identity_entry N i := by
  have hN1 : N ≠ 1 := by omega
  have hc : (0:ℝ) < (N:ℝ) - 1 := by
    have h2 : (2:ℝ) ≤ (N:ℝ) := by exact_mod_cast hN
    linarith
  have hx0 : 0 ≤ (i:ℝ) / ((N:ℝ) - 1) := div_nonneg (Nat.cast_nonneg i) hc.le
  have hx1 : (i:ℝ) / ((N:ℝ) - 1) ≤ 1 := by
    rw [div_le_one hc]
    have hi1 : (i:ℝ) + 1 ≤ (N:ℝ) := by exact_mod_cast Nat.succ_le_of_lt hi
    linarith
  unfold lut_channel lut_y lut_base identity_entry
  dsimp only
  rw [if_neg hN1, add_zero, max_eq_right hx0, Real.rpow_one, mul_one, mul_one,
    clamp01_eq_self hx0 hx1, clamp01_eq_self hx0 hx1]
  exact u16clamp_eq_round (mul_nonneg hx0 (by norm_num))
    (mul_le_of_le_one_left (by norm_num) hx1)

/-- C6: resolving the built-in preset named reset always yields gamma 1,
lift 0, gain 1 and unit multipliers regardless of any configuration file, and
for every N ≥ 2 the table synthesized from these values is the identity map:
entry i is round(i/(N-1) * 65535) in all three channels. -/
theorem reset_preset_identity :
    (∀ (fs : FS) (path : Option String),
        load_preset fs ("reset".toList) path = (.loaded, reset_pv)) ∧
    pv_params reset_pv = ⟨1, 0, 1, 1, 1, 1⟩ ∧
    (∀ N, 2 ≤ N → ∀ i, i < N →
      (set_gamma_lut (pv_params reset_pv) N)[i]? =
        some ⟨identity_entry N i, identity_entry N i, identity_entry N i⟩) := by
  have hpv : pv_params reset_pv = ⟨1, 0, 1, 1, 1, 1⟩ := by
    norm_num [pv_params, reset_pv]
  refine ⟨fun fs path => ?_, hpv, fun N hN i hi => ?_⟩
  · unfold load_preset
    rw [if_pos rfl]
  · rw [set_gamma_lut_getElem _ N i hi, hpv]
    unfold lut_entry
    dsimp only
    rw [lut_channel_neutral i hN hi]

/-- Witness for C6: an empty filesystem, table of length two, index one. -/
theorem reset_preset_identity_witness :
    load_preset fs_empty ("reset".toList) none = (.loaded, reset_pv) ∧
    (2:ℕ) ≤ 2 ∧ 1 < 2 ∧
    (set_gamma_lut (pv_params reset_pv) 2)[1]? =
      some ⟨identity_entry 2 1, identity_entry 2 1, identity_entry 2 1⟩ :=
  ⟨reset_preset_identity.1 fs_empty none, le_rfl, by norm_num,
   reset_preset_identity.2.2 2 le_rfl 1 (by norm_num)⟩

theorem preset_apply_key_unchanged {pv pv2 : preset_vals} {key val : List Char}
    (h : preset_apply_key pv key val = some (pv2, false)) : pv2 = pv := by
  unfold preset_apply_key at h
  split_ifs at h <;> first
    | (split at h <;> simp_all)
    | simp_all

theorem load_preset_lines_nf (want : List Char) :
    ∀ (ls : List (List Char)) (w : Bool) (st : IniStatus) (pv : preset_vals)
      (res : IniStatus × preset_vals),
      load_preset_lines want ls w st pv = res → res.1 = .notfound →
      st = .notfound ∧ res.2 = pv := by
  intro ls
  induction ls with
  | nil =>
    intro w st pv res hres h
    rw [load_preset_lines] at hres
    subst hres
    exact ⟨h, rfl⟩
  | cons l ls ih =>
    intro w st pv res hres h
    rw [load_preset_lines] at hres
    split at hres
    · exact ih _ _ _ _ hres h
    · split at hres
      · split at hres
        · exact ih _ _ _ _ hres h
        · exact ih _ _ _ _ hres h
      · split at hres
        · split at hres
          · exact ih _ _ _ _ hres h
          · split at hres
            · subst hres
              simp at h
            · rename_i pv2 hit hkey
              obtain ⟨hst, hpv⟩ := ih _ _ _ _ hres h
              cases hit with
              | true => simp at hst
              | false =>
                simp at hst
                exact ⟨hst, hpv.trans (preset_apply_key_unchanged hkey)⟩
        · exact ih _ _ _ _ hres h

theorem load_preset_from_file_nf (fs : FS) (path : String) (want : List Char)
    (pv : preset_vals)
    (h : (load_preset_from_file fs path want pv).1 = .notfound) :
    (load_preset_from_file fs path want pv).2 = pv := by
  unfold load_preset_from_file at h ⊢
  cases hf : fs path with
  | none => rfl
  | some lines =>
    rw [hf] at h
    exact (load_preset_lines_nf want lines false _ pv _ rfl h).2

/-- C3 amended: for a preset name other than the built-in reset, the first
resource in search order from which the scan returns a nonzero status — at
least one recognized key of the matching section parsed successfully, or a
parse error occurred — wins, and the later resource is not consulted; when
the first resource reports not-found (no readable file, no matching section,
or a matching section with no recognized keys), the second resource is
scanned from a pristine parameter record, so key values are never merged
across files. -/
theorem preset_first_nonzero_wins (fs : FS) (name : List Char)
    (hname : name ≠ "reset".toList) :
    ((load_preset_from_file fs "./presets.ini" name pv0).1 ≠ .notfound →
       load_preset fs name none =
         load_preset_from_file fs "./presets.ini" name pv0) ∧
    ((load_preset_from_file fs "./presets.ini" name pv0).1 = .notfound →
       load_preset fs name none =
         load_preset_from_file fs "/etc/gamma-presets.ini" name pv0) := by
  constructor
  · intro h
    unfold load_preset
    rw [if_neg hname]
    dsimp only
    rw [if_pos h]
  · intro h
    unfold load_preset
    rw [if_neg hname]
    dsimp only
    rw [if_neg (by simp [h]), load_preset_from_file_nf fs _ name pv0 h]

/-- C3 counterexample: the project-local resource contains a warm section (so
by the claim it should win and the system-wide resource should not be
consulted), but the section holds no recognized keys, the scan reports
not-found, and resolution takes the gamma value 2 from the warm section of the
system-wide resource. -/
theorem preset_first_match_counterexample :
    contains_section warm_f1 ("warm".toList) = true ∧
    (load_preset_from_file warm_fs "./presets.ini" ("warm".toList) pv0).1 =
      .notfound ∧
    load_preset warm_fs ("warm".toList) none =
      load_preset_from_file warm_fs "/etc/gamma-presets.ini" ("warm".toList)
        pv0 ∧
    (load_preset warm_fs ("warm".toList) none).1 = .loaded ∧
    (load_preset warm_fs ("warm".toList) none).2.gamma = 2 := by
  decide

/-- Witness for the amended C3: a first resource whose warm section carries a
valid gamma key wins. -/
theorem preset_first_nonzero_wins_witness :
    ("warm".toList ≠ "reset".toList) ∧
    (load_preset_from_file warm_fsB "./presets.ini" ("warm".toList) pv0).1 ≠
      .notfound ∧
    load_preset warm_fsB ("warm".toList) none =
      load_preset_from_file warm_fsB "./presets.ini" ("warm".toList) pv0 :=
  ⟨by decide, by decide,
   (preset_first_nonzero_wins warm_fsB ("warm".toList) (by decide)).1
     (by decide)⟩

theorem list_lines_eq (ls : List (List Char)) :
    list_lines ls =
      (ls.filterMap section_header_name).filter
        (fun nm => nm ≠ "config".toList) := by
  induction ls with
  | nil => rfl
  | cons l ls ih =>
    simp only [list_lines]
    rw [List.filterMap_cons]
    by_cases h1 : s_trim (strip_comment l) = []
    · have hs : section_header_name l = none := by
        simp [section_header_name, h1]
      simp [h1, hs, ih]
    · by_cases h2 : (s_trim (strip_comment l)).head? = some '['
      · cases h3 : section_name (s_trim (strip_comment l)) with
        | none =>
          have hs : section_header_name l = none := by
            simp [section_header_name, h2, h3]
          simp [h1, h2, h3, hs, ih]
        | some nm =>
          by_cases h4 : nm = []
          · have hs : section_header_name l = none := by
              simp [section_header_name, h2, h3, h4]
            simp [h1, h2, h3, h4, hs, ih]
          · have hs : section_header_name l = some nm := by
              simp [section_header_name, h2, h3, h4]
            by_cases h5 : nm = "config".toList
            · simp [h1, h2, h3, h4, h5, hs, ih]
            · have h5l : nm ≠ ['c', 'o', 'n', 'f', 'i', 'g'] := by
                intro hcon
                exact h5 (by rw [hcon]; rfl)
              simp [h1, h2, h3, h4, h5, h5l, hs, ih]
      · have hs : section_header_name l = none := by
          simp [section_header_name, h2]
        simp [h1, h2, hs, ih]

theorem list_presets_eq (fs : FS) (p : String) :
    list_presets_from_file fs p =
      (file_sections fs p).filter (fun nm => nm ≠ "config".toList) := by
  unfold list_presets_from_file file_sections
  cases fs p
  · rfl
  · exact list_lines_eq _

/-- C8: the listing operation enumerates every section name across the
resource search order (or the single explicit resource), excluding the
reserved section name config, in file order with the built-in name reset
last; names appearing in more than one file are listed once per file (the
per-file lists are concatenated without deduplication); and with no resource
files present exactly the one name reset is listed. -/
theorem list_enumeration_contract (fs : FS) (path : Option String) :
    list_all_presets fs path = spec_listing fs path ∧
    ((∀ q, fs q = none) → list_all_presets fs path = ["reset".toList]) := by
  constructor
  · unfold list_all_presets spec_listing search_order
    cases path with
    | some p => simp [list_presets_eq]
    | none => simp [list_presets_eq]
  · intro hq
    unfold list_all_presets
    cases path with
    | some p => simp [list_presets_from_file, hq]
    | none => simp [list_presets_from_file, hq]

/-- Witness for C8: the empty filesystem lists exactly the built-in reset. -/
theorem list_enumeration_contract_witness :
    list_all_presets fs_empty none = spec_listing fs_empty none ∧
    list_all_presets fs_empty none = ["reset".toList] :=
  ⟨(list_enumeration_contract fs_empty none).1,
   (list_enumeration_contract fs_empty none).2 (fun q => rfl)⟩

/-- C9: whenever preset resolution loads a section that lacks the gamma key —
regardless of which other recognized keys it supplied — the run is rejected
with the named missing-gamma error and exit code 2, and the DRM stage is never
reached.  The hypotheses restrict attention to runs that get as far as preset
resolution: list mode off, the config-crtc step passes (or is skipped because
--crtc was given), and the name is not numeric. -/
theorem preset_missing_gamma_rejected (fs : FS) (opts : CliOpts)
    (name : List Char) (hw : Bool) (pv : preset_vals)
    (hlm : opts.list_mode = false)
    (hcrtc : opts.crtc_override.isSome = true ∨
      (load_config_crtc fs opts.preset_path).1 ≠ .perror)
    (hnum : parse_double_strict name = none)
    (hload : load_preset fs name opts.preset_path = (.loaded, pv))
    (hg : pv.have_gamma = false) :
    main_model fs opts [name] hw = ⟨2, some .preset_missing_gamma, [], false⟩ := by
  obtain ⟨co, pp, lm⟩ := opts
  simp only at hlm hcrtc hload
  subst hlm
  have hafter : main_after_crtc fs ⟨co, pp, false⟩ [name] hw =
      ⟨2, some .preset_missing_gamma, [], false⟩ := by
    unfold main_after_crtc
    simp [hnum, hload, hg]
  unfold main_model
  cases co with
  | some c => exact hafter
  | none =>
    rcases hcrtc with h | h
    · simp at h
    · cases hst : (load_config_crtc fs pp).1 with
      | loaded => exact hafter
      | notfound => exact hafter
      | perror => exact absurd hst h

/-- Witness for C9: a resource whose warm section has a valid lift key but no
gamma key. -/
theorem preset_missing_gamma_rejected_witness :
    load_preset no_gamma_fs ("warm".toList) none =
      (.loaded,
       ⟨false, true, false, false, false, false, 0, mkRat 1 10, 0, 0, 0, 0,
        false, 0⟩) ∧
    main_model no_gamma_fs ⟨some 68, none, false⟩ ["warm".toList] true =
      ⟨2, some .preset_missing_gamma, [], false⟩ :=
  ⟨by decide,
   preset_missing_gamma_rejected no_gamma_fs ⟨some 68, none, false⟩
     ("warm".toList) true
     ⟨false, true, false, false, false, false, 0, mkRat 1 10, 0, 0, 0, 0,
      false, 0⟩
     rfl (Or.inl rfl) (by decide) (by decide) rfl⟩

/-- C10: when no --crtc option was given and the first resource file in the
search order has a config section whose crtc value fails integer parsing, the
run exits with code 2 before doing anything else: for every mode (including
list mode) and positional arguments, nothing is printed and the DRM stage is
not reached. -/
theorem config_crtc_error_aborts (fs : FS) (pp : Option String) (lm : Bool)
    (pos : List (List Char)) (hw : Bool)
    (h : (load_config_crtc_from_file fs (first_resource pp)).1 = .perror) :
    main_model fs ⟨none, pp, lm⟩ pos hw =
      ⟨2, some .bad_config_crtc, [], false⟩ := by
  have hc : (load_config_crtc fs pp).1 = .perror := by
    cases pp with
    | some p =>
      unfold first_resource search_order at h
      simpa [load_config_crtc] using h
    | none =>
      unfold first_resource search_order at h
      simp only [List.headD] at h
      unfold load_config_crtc
      dsimp only
      rw [if_pos (by simp [h])]
      exact h
  unfold main_model
  dsimp only
  rw [hc]

/-- Witness for C10: a config section with a non-numeric crtc value aborts a
list-mode run with exit code 2 and nothing printed. -/
theorem config_crtc_error_aborts_witness :
    (load_config_crtc_from_file bad_crtc_fs (first_resource none)).1 =
      .perror ∧
    main_model bad_crtc_fs ⟨none, none, true⟩ [] true =
      ⟨2, some .bad_config_crtc, [], false⟩ :=
  ⟨by decide, config_crtc_error_aborts bad_crtc_fs none true [] true (by decide)⟩

theorem pdir_ok {label : String} {s : List Char} {minv maxv v : ℚ}
    (hp : parse_double_strict s = some v) (hc : ¬(v < minv ∨ v > maxv)) :
    parse_double_in_range label s minv maxv = .okv v := by
  unfold parse_double_in_range
  rw [hp]
  dsimp only
  rw [if_neg hc]

theorem pdir_range {label : String} {s : List Char} {minv maxv v : ℚ}
    (hp : parse_double_strict s = some v) (hc : v < minv ∨ v > maxv) :
    parse_double_in_range label s minv maxv = .bad (.out_of_range label) := by
  unfold parse_double_in_range
  rw [hp]
  dsimp only
  rw [if_pos hc]

theorem parse_okv {label : String} {s : List Char} {minv maxv v : ℚ}
    (h : parse_double_in_range label s minv maxv = .okv v) :
    parse_double_strict s = some v ∧ ¬(v < minv ∨ v > maxv) := by
  unfold parse_double_in_range at h
  cases hp : parse_double_strict s with
  | none =>
    rw [hp] at h
    exact absurd h (by simp)
  | some w =>
    rw [hp] at h
    dsimp only at h
    by_cases hc : w < minv ∨ w > maxv
    · rw [if_pos hc] at h
      exact absurd h (by simp)
    · rw [if_neg hc] at h
      injection h with hwv
      subst hwv
      exact ⟨rfl, hc⟩

theorem main_numeric_failed (fs : FS) (pp : Option String) (c : ℕ) (hw : Bool)
    (gstr : List Char) (rest : List (List Char)) (gp : ℚ) (e : ParseErr)
    (hparse : parse_double_strict gstr = some gp)
    (hres : resolve_numeric gp rest = .failed e) :
    main_model fs ⟨some c, pp, false⟩ (gstr :: rest) hw = reject_outcome e := by
  unfold main_model main_after_crtc
  simp [hparse, hres, reject_outcome]

theorem resolve_resolved (gp : ℚ) (rest : List (List Char))
    (g0 l ga r0 g1 b0 : ℚ)
    (hres : resolve_numeric gp rest = .resolved g0 l ga r0 g1 b0) :
    (g0 = gp ∧ ¬(gp < GAMMA_MIN ∨ gp > GAMMA_MAX)) ∧
    ¬(l < LIFT_MIN ∨ l > LIFT_MAX) ∧
    ¬(ga < GAIN_MIN ∨ ga > GAIN_MAX) ∧
    ¬(r0 < MULT_MIN ∨ r0 > MULT_MAX) ∧
    ¬(g1 < MULT_MIN ∨ g1 > MULT_MAX) ∧
    ¬(b0 < MULT_MIN ∨ b0 > MULT_MAX) ∧
    (∀ a t, rest = a :: t → parse_double_strict a = some l) ∧
    (∀ a b t, rest = a :: b :: t → parse_double_strict b = some ga) ∧
    (∀ a b c t, rest = a :: b :: c :: t → parse_double_strict c = some r0) ∧
    (∀ a b c d t, rest = a :: b :: c :: d :: t →
      parse_double_strict d = some g1) ∧
    (∀ a b c d e t, rest = a :: b :: c :: d :: e :: t →
      parse_double_strict e = some b0) := by
  rcases rest with _ | ⟨a1, _ | ⟨a2, _ | ⟨a3, _ | ⟨a4, _ | ⟨a5, t6⟩⟩⟩⟩⟩ <;>
    unfold resolve_numeric at hres <;> dsimp only at hres
  · split at hres
    · exact absurd hres (by simp)
    · split at hres
      · exact absurd hres (by simp)
      · rename_i hga
        injection hres with e1 e2 e3 e4 e5 e6
        exact ⟨⟨e1.symm, hga⟩, e2 ▸ (by decide), e3 ▸ (by decide),
          e4 ▸ (by decide), e5 ▸ (by decide), e6 ▸ (by decide),
          fun a t h => by simp at h, fun a b t h => by simp at h,
          fun a b c t h => by simp at h, fun a b c d t h => by simp at h,
          fun a b c d e t h => by simp at h⟩
  · split at hres
    · exact absurd hres (by simp)
    · split at hres
      · exact absurd hres (by simp)
      · rename_i hga
        split at hres
        · exact absurd hres (by simp)
        · rename_i lift hlift
          obtain ⟨hp1, hc1⟩ := parse_okv hlift
          injection hres with e1 e2 e3 e4 e5 e6
          refine ⟨⟨e1.symm, hga⟩, e2 ▸ hc1, e3 ▸ (by decide), e4 ▸ (by decide),
            e5 ▸ (by decide), e6 ▸ (by decide), ?_,
            fun a b t h => by simp at h, fun a b c t h => by simp at h,
            fun a b c d t h => by simp at h, fun a b c d e t h => by simp at h⟩
          intro a t h
          injection h with h1 h2
          exact h1 ▸ (e2 ▸ hp1)
  · split at hres
    · exact absurd hres (by simp)
    · split at hres
      · exact absurd hres (by simp)
      · rename_i hga
        split at hres
        · exact absurd hres (by simp)
        · rename_i lift hlift
          split at hres
          · exact absurd hres (by simp)
          · rename_i gain hgain
            obtain ⟨hp1, hc1⟩ := parse_okv hlift
            obtain ⟨hp2, hc2⟩ := parse_okv hgain
            injection hres with e1 e2 e3 e4 e5 e6
            refine ⟨⟨e1.symm, hga⟩, e2 ▸ hc1, e3 ▸ hc2, e4 ▸ (by decide),
              e5 ▸ (by decide), e6 ▸ (by decide), ?_, ?_,
              fun a b c t h => by simp at h,
              fun a b c d t h => by simp at h,
              fun a b c d e t h => by simp at h⟩
            · intro a t h
              injection h with h1 h2
              exact h1 ▸ (e2 ▸ hp1)
            · intro a b t h
              injection h with h1 h2
              injection h2 with h2a h2b
              exact h2a ▸ (e3 ▸ hp2)
  · split at hres
    · exact absurd hres (by simp)
    · split at hres
      · exact absurd hres (by simp)
      · rename_i hga
        split at hres
        · exact absurd hres (by simp)
        · rename_i lift hlift
          split at hres
          · exact absurd hres (by simp)
          · rename_i gain hgain
            split at hres
            · exact absurd hres (by simp)
            · rename_i rv hrv
              obtain ⟨hp1, hc1⟩ := parse_okv hlift
              obtain ⟨hp2, hc2⟩ := parse_okv hgain
              obtain ⟨hp3, hc3⟩ := parse_okv hrv
              injection hres with e1 e2 e3 e4 e5 e6
              refine ⟨⟨e1.symm, hga⟩, e2 ▸ hc1, e3 ▸ hc2, e4 ▸ hc3,
                e5 ▸ (by decide), e6 ▸ (by decide), ?_, ?_, ?_,
                fun a b c d t h => by simp at h,
                fun a b c d e t h => by simp at h⟩
              · intro a t h
                injection h with h1 h2
                exact h1 ▸ (e2 ▸ hp1)
              · intro a b t h
                injection h with h1 h2
                injection h2 with h2a h2b
                exact h2a ▸ (e3 ▸ hp2)
              · intro a b c t h
                injection h with h1 h2
                injection h2 with h2a h2b
                injection h2b with h3a h3b
                exact h3a ▸ (e4 ▸ hp3)
  · split at hres
    · exact absurd hres (by simp)
    · split at hres
      · exact absurd hres (by simp)
      · rename_i hga
        split at hres
        · exact absurd hres (by simp)
        · rename_i lift hlift
          split at hres
          · exact absurd hres (by simp)
          · rename_i gain hgain
            split at hres
            · exact absurd hres (by simp)
            · rename_i rv hrv
              split at hres
              · exact absurd hres (by simp)
              · rename_i gv hgv
                obtain ⟨hp1, hc1⟩ := parse_okv hlift
                obtain ⟨hp2, hc2⟩ := parse_okv hgain
                obtain ⟨hp3, hc3⟩ := parse_okv hrv
                obtain ⟨hp4, hc4⟩ := parse_okv hgv
                injection hres with e1 e2 e3 e4 e5 e6
                refine ⟨⟨e1.symm, hga⟩, e2 ▸ hc1, e3 ▸ hc2, e4 ▸ hc3,
                  e5 ▸ hc4, e6 ▸ (by decide), ?_, ?_, ?_, ?_,
                  fun a b c d e t h => by simp at h⟩
                · intro a t h
                  injection h with h1 h2
                  exact h1 ▸ (e2 ▸ hp1)
                · intro a b t h
                  injection h with h1 h2
                  injection h2 with h2a h2b
                  exact h2a ▸ (e3 ▸ hp2)
                · intro a b c t h
                  injection h with h1 h2
                  injection h2 with h2a h2b
                  injection h2b with h3a h3b
                  exact h3a ▸ (e4 ▸ hp3)
                · intro a b c d t h
                  injection h with h1 h2
                  injection h2 with h2a h2b
                  injection h2b with h3a h3b
                  injection h3b with h4a h4b
                  exact h4a ▸ (e5 ▸ hp4)
  · split at hres
    · exact absurd hres (by simp)
    · split at hres
      · exact absurd hres (by simp)
      · rename_i hga
        split at hres
        · exact absurd hres (by simp)
        · rename_i lift hlift
          split at hres
          · exact absurd hres (by simp)
          · rename_i gain hgain
            split at hres
            · exact absurd hres (by simp)
            · rename_i rv hrv
              split at hres
              · exact absurd hres (by simp)
              · rename_i gv hgv
                split at hres
                · exact absurd hres (by simp)
                · rename_i bv hbv
                  obtain ⟨hp1, hc1⟩ := parse_okv hlift
                  obtain ⟨hp2, hc2⟩ := parse_okv hgain
                  obtain ⟨hp3, hc3⟩ := parse_okv hrv
                  obtain ⟨hp4, hc4⟩ := parse_okv hgv
                  obtain ⟨hp5, hc5⟩ := parse_okv hbv
                  injection hres with e1 e2 e3 e4 e5 e6
                  refine ⟨⟨e1.symm, hga⟩, e2 ▸ hc1, e3 ▸ hc2, e4 ▸ hc3,
                    e5 ▸ hc4, e6 ▸ hc5, ?_, ?_, ?_, ?_, ?_⟩
                  · intro a t h
                    injection h with h1 h2
                    exact h1 ▸ (e2 ▸ hp1)
                  · intro a b t h
                    injection h with h1 h2
                    injection h2 with h2a h2b
                    exact h2a ▸ (e3 ▸ hp2)
                  · intro a b c t h
                    injection h with h1 h2
                    injection h2 with h2a h2b
                    injection h2b with h3a h3b
                    exact h3a ▸ (e4 ▸ hp3)
                  · intro a b c d t h
                    injection h with h1 h2
                    injection h2 with h2a h2b
                    injection h2b with h3a h3b
                    injection h3b with h4a h4b
                    exact h4a ▸ (e5 ▸ hp4)
                  · intro a b c d e t h
                    injection h with h1 h2
                    injection h2 with h2a h2b
                    injection h2b with h3a h3b
                    injection h3b with h4a h4b
                    injection h4b with h5a h5b
                    exact h5a ▸ (e6 ▸ hp5)

/-- C2: on the numeric CLI path, every argument whose parsed value lies
outside its declared closed range is rejected with a range-violation error
naming the field, exit code 2 and no hardware interaction (conjunctions one
through six, one per field in checking order, each conditioned on the earlier
fields passing); and the resolver never silently clamps: a successful
resolution returns every supplied value exactly as parsed, with every value
inside its closed range (final conjunction). -/
theorem numeric_range_validation (fs : FS) (pp : Option String) (c : ℕ)
    (hw : Bool) (gstr : List Char) (rest : List (List Char)) (gp : ℚ)
    (hparse : parse_double_strict gstr = some gp)
    (harity : rest.length ≤ 5) :
    ((gp < GAMMA_MIN ∨ gp > GAMMA_MAX) →
       resolve_numeric gp rest = .failed (.out_of_range "gamma") ∧
       main_model fs ⟨some c, pp, false⟩ (gstr :: rest) hw =
         reject_outcome (.out_of_range "gamma")) ∧
    (∀ a1 r1 v1, rest = a1 :: r1 →
       ¬(gp < GAMMA_MIN ∨ gp > GAMMA_MAX) →
       parse_double_strict a1 = some v1 →
       (v1 < LIFT_MIN ∨ v1 > LIFT_MAX) →
       resolve_numeric gp rest = .failed (.out_of_range "lift") ∧
       main_model fs ⟨some c, pp, false⟩ (gstr :: rest) hw =
         reject_outcome (.out_of_range "lift")) ∧
    (∀ a1 a2 r2 v1 v2, rest = a1 :: a2 :: r2 →
       ¬(gp < GAMMA_MIN ∨ gp > GAMMA_MAX) →
       parse_double_strict a1 = some v1 → ¬(v1 < LIFT_MIN ∨ v1 > LIFT_MAX) →
       parse_double_strict a2 = some v2 →
       (v2 < GAIN_MIN ∨ v2 > GAIN_MAX) →
       resolve_numeric gp rest = .failed (.out_of_range "gain") ∧
       main_model fs ⟨some c, pp, false⟩ (gstr :: rest) hw =
         reject_outcome (.out_of_range "gain")) ∧
    (∀ a1 a2 a3 r3 v1 v2 v3, rest = a1 :: a2 :: a3 :: r3 →
       ¬(gp < GAMMA_MIN ∨ gp > GAMMA_MAX) →
       parse_double_strict a1 = some v1 → ¬(v1 < LIFT_MIN ∨ v1 > LIFT_MAX) →
       parse_double_strict a2 = some v2 → ¬(v2 < GAIN_MIN ∨ v2 > GAIN_MAX) →
       parse_double_strict a3 = some v3 →
       (v3 < MULT_MIN ∨ v3 > MULT_MAX) →
       resolve_numeric gp rest = .failed (.out_of_range "r") ∧
       main_model fs ⟨some c, pp, false⟩ (gstr :: rest) hw =
         reject_outcome (.out_of_range "r")) ∧
    (∀ a1 a2 a3 a4 r4 v1 v2 v3 v4, rest = a1 :: a2 :: a3 :: a4 :: r4 →
       ¬(gp < GAMMA_MIN ∨ gp > GAMMA_MAX) →
       parse_double_strict a1 = some v1 → ¬(v1 < LIFT_MIN ∨ v1 > LIFT_MAX) →
       parse_double_strict a2 = some v2 → ¬(v2 < GAIN_MIN ∨ v2 > GAIN_MAX) →
       parse_double_strict a3 = some v3 → ¬(v3 < MULT_MIN ∨ v3 > MULT_MAX) →
       parse_double_strict a4 = some v4 →
       (v4 < MULT_MIN ∨ v4 > MULT_MAX) →
       resolve_numeric gp rest = .failed (.out_of_range "g") ∧
       main_model fs ⟨some c, pp, false⟩ (gstr :: rest) hw =
         reject_outcome (.out_of_range "g")) ∧
    (∀ a1 a2 a3 a4 a5 r5 v1 v2 v3 v4 v5,
       rest = a1 :: a2 :: a3 :: a4 :: a5 :: r5 →
       ¬(gp < GAMMA_MIN ∨ gp > GAMMA_MAX) →
       parse_double_strict a1 = some v1 → ¬(v1 < LIFT_MIN ∨ v1 > LIFT_MAX) →
       parse_double_strict a2 = some v2 → ¬(v2 < GAIN_MIN ∨ v2 > GAIN_MAX) →
       parse_double_strict a3 = some v3 → ¬(v3 < MULT_MIN ∨ v3 > MULT_MAX) →
       parse_double_strict a4 = some v4 → ¬(v4 < MULT_MIN ∨ v4 > MULT_MAX) →
       parse_double_strict a5 = some v5 →
       (v5 < MULT_MIN ∨ v5 > MULT_MAX) →
       resolve_numeric gp rest = .failed (.out_of_range "b") ∧
       main_model fs ⟨some c, pp, false⟩ (gstr :: rest) hw =
         reject_outcome (.out_of_range "b")) ∧
    (∀ g0 l ga r0 g1 b0,
       resolve_numeric gp rest = .resolved g0 l ga r0 g1 b0 →
       (g0 = gp ∧ ¬(gp < GAMMA_MIN ∨ gp > GAMMA_MAX)) ∧
       ¬(l < LIFT_MIN ∨ l > LIFT_MAX) ∧
       ¬(ga < GAIN_MIN ∨ ga > GAIN_MAX) ∧
       ¬(r0 < MULT_MIN ∨ r0 > MULT_MAX) ∧
       ¬(g1 < MULT_MIN ∨ g1 > MULT_MAX) ∧
       ¬(b0 < MULT_MIN ∨ b0 > MULT_MAX) ∧
       (∀ a t, rest = a :: t → parse_double_strict a = some l) ∧
       (∀ a b t, rest = a :: b :: t → parse_double_strict b = some ga) ∧
       (∀ a b c2 t, rest = a :: b :: c2 :: t →
         parse_double_strict c2 = some r0) ∧
       (∀ a b c2 d t, rest = a :: b :: c2 :: d :: t →
         parse_double_strict d = some g1) ∧
       (∀ a b c2 d e t, rest = a :: b :: c2 :: d :: e :: t →
         parse_double_strict e = some b0)) := by
  refine ⟨?_, ?_, ?_, ?_, ?_, ?_, ?_⟩
  · intro hout
    have hres : resolve_numeric gp rest = .failed (.out_of_range "gamma") := by
      unfold resolve_numeric
      rw [if_neg (by omega), if_pos hout]
    exact ⟨hres, main_numeric_failed fs pp c hw gstr rest gp _ hparse hres⟩
  · intro a1 r1 v1 hr hga hp1 hv1
    subst hr
    have hres : resolve_numeric gp (a1 :: r1) =
        .failed (.out_of_range "lift") := by
      unfold resolve_numeric
      rw [if_neg (by omega), if_neg hga]
      dsimp only
      rw [pdir_range hp1 hv1]
    exact ⟨hres, main_numeric_failed fs pp c hw gstr _ gp _ hparse hres⟩
  · intro a1 a2 r2 v1 v2 hr hga hp1 hn1 hp2 hv2
    subst hr
    have hres : resolve_numeric gp (a1 :: a2 :: r2) =
        .failed (.out_of_range "gain") := by
      unfold resolve_numeric
      rw [if_neg (by omega), if_neg hga]
      dsimp only
      rw [pdir_ok hp1 hn1]
      dsimp only
      rw [pdir_range hp2 hv2]
    exact ⟨hres, main_numeric_failed fs pp c hw gstr _ gp _ hparse hres⟩
  · intro a1 a2 a3 r3 v1 v2 v3 hr hga hp1 hn1 hp2 hn2 hp3 hv3
    subst hr
    have hres : resolve_numeric gp (a1 :: a2 :: a3 :: r3) =
        .failed (.out_of_range "r") := by
      unfold resolve_numeric
      rw [if_neg (by omega), if_neg hga]
      dsimp only
      rw [pdir_ok hp1 hn1]
      dsimp only
      rw [pdir_ok hp2 hn2]
      dsimp only
      rw [pdir_range hp3 hv3]
    exact ⟨hres, main_numeric_failed fs pp c hw gstr _ gp _ hparse hres⟩
  · intro a1 a2 a3 a4 r4 v1 v2 v3 v4 hr hga hp1 hn1 hp2 hn2 hp3 hn3 hp4 hv4
    subst hr
    have hres : resolve_numeric gp (a1 :: a2 :: a3 :: a4 :: r4) =
        .failed (.out_of_range "g") := by
      unfold resolve_numeric
      rw [if_neg (by omega), if_neg hga]
      dsimp only
      rw [pdir_ok hp1 hn1]
      dsimp only
      rw [pdir_ok hp2 hn2]
      dsimp only
      rw [pdir_ok hp3 hn3]
      dsimp only
      rw [pdir_range hp4 hv4]
    exact ⟨hres, main_numeric_failed fs pp c hw gstr _ gp _ hparse hres⟩
  · intro a1 a2 a3 a4 a5 r5 v1 v2 v3 v4 v5 hr hga hp1 hn1 hp2 hn2 hp3 hn3
      hp4 hn4 hp5 hv5
    subst hr
    have hres : resolve_numeric gp (a1 :: a2 :: a3 :: a4 :: a5 :: r5) =
        .failed (.out_of_range "b") := by
      unfold resolve_numeric
      rw [if_neg (by omega), if_neg hga]
      dsimp only
      rw [pdir_ok hp1 hn1]
      dsimp only
      rw [pdir_ok hp2 hn2]
      dsimp only
      rw [pdir_ok hp3 hn3]
      dsimp only
      rw [pdir_ok hp4 hn4]
      dsimp only
      rw [pdir_range hp5 hv5]
    exact ⟨hres, main_numeric_failed fs pp c hw gstr _ gp _ hparse hres⟩
  · intro g0 l ga r0 g1 b0 h
    exact resolve_resolved gp rest g0 l ga r0 g1 b0 h

/-- Witness for C2: gamma value 6 is out of range and rejected with the
gamma-naming error, exit code 2 and no hardware interaction. -/
theorem numeric_range_validation_witness :
    parse_double_strict ("6".toList) = some 6 ∧ ([] : List (List Char)).length ≤ 5 ∧
    ((6:ℚ) < GAMMA_MIN ∨ (6:ℚ) > GAMMA_MAX) ∧
    (resolve_numeric 6 [] = .failed (.out_of_range "gamma") ∧
     main_model fs_empty ⟨some 68, none, false⟩ ["6".toList] true =
       reject_outcome (.out_of_range "gamma")) :=
  ⟨by decide, by decide, by decide,
   (numeric_range_validation fs_empty none 68 true ("6".toList) [] 6
      (by decide) (by decide)).1 (by decide)⟩

end GammaLut
